import Mathlib

set_option maxHeartbeats 1000000

/-!
Verification of the redux quiz store (src/index.ts) and the express stub
endpoint. The store state, actions, reducer, selectors and the two thunks
are embedded shallowly; JavaScript array semantics (findIndex returning -1,
slice with negative bounds, out-of-range element access yielding undefined,
object spread over undefined) are modelled explicitly, since the reducer's
setAnswerSelected branch exercises them when the answer id is unknown.
-/

/-! ## JavaScript array and object primitives -/

/-- JS truthiness of a possibly-undefined boolean: undefined is falsy. -/
def jsTruthyBool (o : Option Bool) : Bool :=
  match o with
  | some b => b
  | none => false

/-- JS Array.prototype.findIndex: index of the first element satisfying the
    callback, and -1 when no element does. -/
def jsFindIndex {α : Type} (p : α → Bool) : List α → Int
  | [] => -1
  | x :: xs =>
    if p x then 0
    else
      let r := jsFindIndex p xs
      if r < 0 then -1 else r + 1

/-- Normalisation of one JS slice bound: a negative bound counts from the end
    of the array and the result is clamped to the interval from 0 to len. -/
def jsNormIdx (len : Nat) (i : Int) : Nat :=
  if i < 0 then ((len : Int) + i).toNat else min i.toNat len

/-- JS Array.prototype.slice with two arguments. -/
def jsSlice {α : Type} (l : List α) (s e : Int) : List α :=
  (l.take (jsNormIdx l.length e)).drop (jsNormIdx l.length s)

/-- JS Array.prototype.slice with one argument: the end bound defaults to the
    array length. -/
def jsSliceFrom {α : Type} (l : List α) (s : Int) : List α :=
  jsSlice l s (l.length : Int)

/-- JS element access: undefined for a negative or out-of-range index. -/
def jsGetElem {α : Type} (l : List α) (i : Int) : Option α :=
  if i < 0 then none else l.get? i.toNat

/-! ## Domain model (src/index.ts) -/

inductive QuestionType : Type
  | UCQ
  | MCQ
deriving DecidableEq, Repr

/-- An answer object. Every field is optional because the reducer's unknown-id
    branch builds an object by spreading undefined, which yields an object
    carrying only the isSelected field. -/
structure Answer : Type where
  id : Option String
  text : Option String
  isCorrect : Option Bool
  isSelected : Option Bool
deriving DecidableEq, Repr

structure Question : Type where
  id : String
  type : QuestionType
  text : String
  answers : List Answer
  isValidated : Bool
deriving DecidableEq, Repr

/-- AppState = Question | null. -/
abbrev AppState : Type := Option Question

inductive AppAction : Type
  | setQuestion (question : Question)
  | setAnswerSelected (answerId : Option String) (isSelected : Bool)
  | setQuestionValidated (questionId : String) (isValidated : Bool)
deriving DecidableEq, Repr

/-- Action creator setQuestion. -/
def setQuestion (question : Question) : AppAction :=
  AppAction.setQuestion question

/-- Action creator setAnswerSelected; the source defaults isSelected to true,
    call sites below pass it explicitly. -/
def setAnswerSelected (answer : Answer) (isSelected : Bool) : AppAction :=
  AppAction.setAnswerSelected answer.id isSelected

/-- Action creator setQuestionValidated; the source defaults isValidated to
    true, call sites below pass it explicitly. -/
def setQuestionValidated (question : Question) (isValidated : Bool) : AppAction :=
  AppAction.setQuestionValidated question.id isValidated

/-- JS object spread of a possibly-undefined answer together with an
    isSelected field: spreading undefined contributes no fields, so only
    isSelected is defined on the result. -/
def jsSpreadSetSelected (o : Option Answer) (isSelected : Bool) : Answer :=
  match o with
  | some answer => { answer with isSelected := some isSelected }
  | none => { id := none, text := none, isCorrect := none, isSelected := some isSelected }

/-- The answers array produced by the setAnswerSelected branch of the reducer:
    answers.slice(0, idx) ++ [spread of answers idx with isSelected] ++
    answers.slice(idx + 1), with idx the findIndex result (possibly -1). -/
def jsAnswersUpdate (answerId : Option String) (isSelected : Bool) (l : List Answer) : List Answer :=
  let idx := jsFindIndex (fun answer => answer.id == answerId) l
  jsSlice l 0 idx ++ [jsSpreadSetSelected (jsGetElem l idx) isSelected] ++ jsSliceFrom l (idx + 1)

/-- The reducer. The branches occur in source order: setQuestion replaces the
    state unconditionally, a null state is returned unchanged, and the two
    remaining actions update the current question. -/
def reducer (state : AppState) (action : AppAction) : AppState :=
  match action, state with
  | AppAction.setQuestion question, _ => some question
  | _, none => none
  | AppAction.setQuestionValidated _ isValidated, some question =>
    some { question with isValidated := isValidated }
  | AppAction.setAnswerSelected answerId isSelected, some question =>
    some { question with answers := jsAnswersUpdate answerId isSelected question.answers }

/-! ## Selectors and thunks -/

/-- selectQuestion throws when the state is null; the thrown message is
    modelled as the error of an Except computation. -/
def selectQuestion (state : AppState) : Except String Question :=
  match state with
  | none => Except.error "question is null"
  | some question => Except.ok question

def selectAnswers (state : AppState) : Except String (List Answer) :=
  (selectQuestion state).map Question.answers

/-- Selected answers are the ones whose isSelected field is truthy. -/
def selectSelectedAnswers (state : AppState) : Except String (List Answer) :=
  (selectAnswers state).map (List.filter (fun answer => jsTruthyBool answer.isSelected))

/-- The selectAnswer thunk: on a UCQ question with an already selected answer,
    the first selected answer is deselected before the target is selected.
    Dispatching against the store is modelled by threading the state through
    the reducer; a thrown error is the Except error, in which case the store
    state is untouched. -/
def selectAnswer (answer : Answer) (state : AppState) : Except String AppState := do
  let question ← selectQuestion state
  let selectedAnswers ← selectSelectedAnswers state
  let firstSelectedAnswer := selectedAnswers.head?
  let state1 :=
    if question.type = QuestionType.UCQ then
      match firstSelectedAnswer with
      | some firstSelected => reducer state (setAnswerSelected firstSelected false)
      | none => state
    else
      state
  Except.ok (reducer state1 (setAnswerSelected answer true))

/-- The validateQuestion thunk. The gateway is modelled as the boolean-valued
    function it is awaited as; a false result raises the fixed error message
    and nothing is dispatched, a true result dispatches setQuestionValidated
    on the current question. -/
def validateQuestion (validate : List (Option String) → Bool) (state : AppState) :
    Except String AppState := do
  let question ← selectQuestion state
  let selectedAnswers ← selectSelectedAnswers state
  let success := validate (selectedAnswers.map Answer.id)
  if !success then
    Except.error "response not ok"
  else
    Except.ok (reducer state (setQuestionValidated question true))

/-! ## Stub server endpoint (express app) -/

structure HttpResponse : Type where
  status : Nat
  body : String
deriving DecidableEq, Repr

/-- The express handler for POST /validate-question: it logs the request body
    and unconditionally replies with status 201 and an empty body. -/
def postValidateQuestion (_requestBody : String) : HttpResponse :=
  { status := 201, body := "" }

/-! ## Invariant vocabulary -/

/-- Number of selected answers (same truthiness test as the selector). -/
abbrev selectedCount (l : List Answer) : Nat :=
  l.countP (fun answer => jsTruthyBool answer.isSelected)

/-- The UCQ invariant of a state: when the held question is of type UCQ, at
    most one of its answers is selected. A null state satisfies it. -/
abbrev stateUcqInv : AppState → Prop := fun state =>
  match state with
  | none => True
  | some question => question.type = QuestionType.UCQ → selectedCount question.answers ≤ 1

/-- All answer ids of the held question are pairwise distinct. -/
abbrev stateNodupIds : AppState → Prop := fun state =>
  match state with
  | none => True
  | some question => (question.answers.map Answer.id).Nodup

/-! ## Concrete data used by witnesses (mirrors main in src/index.ts, with
    the second answer selected) -/

def demoAnswer1 : Answer :=
  { id := some "answer1", text := some "good", isCorrect := some true, isSelected := some false }

def demoAnswer2 : Answer :=
  { id := some "answer2", text := some "baad", isCorrect := some false, isSelected := some true }

def demoQuestion : Question :=
  { id := "question1", type := QuestionType.UCQ, text := "How are you?",
    answers := [demoAnswer1, demoAnswer2], isValidated := false }

/-! ## Concrete data for the corrected claims -/

/-- One-answer UCQ question used to refute the unknown-id no-op claim. -/
def c3xQ : Question :=
  { id := "q3", type := QuestionType.UCQ, text := "t3",
    answers := [demoAnswer1], isValidated := false }

/-- What the reducer actually produces on c3xQ for an unknown answer id. -/
def c3xQ' : Question :=
  { c3xQ with answers :=
      [{ id := none, text := none, isCorrect := none, isSelected := some true },
       demoAnswer1] }

/-- Selected answer with id "x", used to refute C1 on duplicate ids. -/
def c1xA : Answer :=
  { id := some "x", text := some "first", isCorrect := some true, isSelected := some true }

/-- Unselected answer sharing id "x" with c1xA. -/
def c1xB : Answer :=
  { id := some "x", text := some "second", isCorrect := some false, isSelected := some false }

/-- UCQ question whose two distinct answers share one id. -/
def c1xQ : Question :=
  { id := "q1", type := QuestionType.UCQ, text := "t1",
    answers := [c1xA, c1xB], isValidated := false }

/-- MCQ copy of the demo question, for the C4 witness. -/
def c4wQ : Question :=
  { demoQuestion with type := QuestionType.MCQ }

/-- Unselected answer with id "x", used to refute C4 on duplicate ids. -/
def c4xP : Answer :=
  { id := some "x", text := some "p", isCorrect := some false, isSelected := some false }

/-- The answer the caller asks to select; it shares id "x" with c4xP. -/
def c4xB : Answer :=
  { id := some "x", text := some "b", isCorrect := some true, isSelected := some false }

/-- MCQ question whose two distinct answers share one id. -/
def c4xQ : Question :=
  { id := "q4", type := QuestionType.MCQ, text := "t4",
    answers := [c4xP, c4xB], isValidated := false }

/-- What selectAnswer(c4xB) actually produces on c4xQ: the other answer with
    the same id gets selected, c4xB stays unselected. -/
def c4xQ' : Question :=
  { c4xQ with answers := [{ c4xP with isSelected := some true }, c4xB] }

/-- Unselected answer for the C2 counterexample. -/
def c2xA1 : Answer :=
  { id := some "a1", text := some "t1", isCorrect := some false, isSelected := some false }

/-- Selected answer for the C2 counterexample. -/
def c2xA2 : Answer :=
  { id := some "a2", text := some "t2", isCorrect := some true, isSelected := some true }

/-- UCQ question satisfying the invariant: exactly one answer selected. -/
def c2xQ : Question :=
  { id := "q2", type := QuestionType.UCQ, text := "t2",
    answers := [c2xA1, c2xA2], isValidated := false }

/-- State reached from c2xQ by one raw setAnswerSelected dispatch: both
    answers selected, breaking the UCQ invariant. -/
def c2xQ' : Question :=
  { c2xQ with answers := [{ c2xA1 with isSelected := some true }, c2xA2] }

/-- Result of selectAnswer(demoAnswer1) on the demo question. -/
def c2wRes : Question :=
  { demoQuestion with answers :=
      [{ demoAnswer1 with isSelected := some true },
       { demoAnswer2 with isSelected := some false }] }

/-- First selected answer of the C10 counterexample state. -/
def c10xP : Answer :=
  { id := some "p", text := some "tp", isCorrect := some false, isSelected := some true }

/-- Second selected answer of the C10 counterexample state. -/
def c10xR : Answer :=
  { id := some "r", text := some "tr", isCorrect := some false, isSelected := some true }

/-- The answer selected twice in the C10 counterexample. -/
def c10xA : Answer :=
  { id := some "a", text := some "ta", isCorrect := some true, isSelected := some false }

/-- UCQ question with two selected answers (invariant-violating but a state
    the claim as stated quantifies over). -/
def c10xQ : Question :=
  { id := "q10", type := QuestionType.UCQ, text := "t10",
    answers := [c10xP, c10xR, c10xA], isValidated := false }

/-- State after the first selectAnswer(c10xA): p deselected, r still
    selected, a selected. -/
def c10xS1 : Question :=
  { c10xQ with answers :=
      [{ c10xP with isSelected := some false }, c10xR,
       { c10xA with isSelected := some true }] }

/-- State after the second selectAnswer(c10xA): now r is deselected too. -/
def c10xS2 : Question :=
  { c10xQ with answers :=
      [{ c10xP with isSelected := some false }, { c10xR with isSelected := some false },
       { c10xA with isSelected := some true }] }

/-! ## Proof-layer vocabulary -/

/-- Update of the first answer whose id matches: the list shape produced by
    the found branch of the reducer's setAnswerSelected case. -/
def updateFirst (answerId : Option String) (isSelected : Bool) : List Answer → List Answer
  | [] => []
  | x :: xs =>
    if x.id == answerId then { x with isSelected := some isSelected } :: xs
    else x :: updateFirst answerId isSelected xs

/-- Pointwise variant of updateFirst; the two agree when answer ids are
    pairwise distinct. -/
def setIf (answerId : Option String) (isSelected : Bool) (x : Answer) : Answer :=
  if x.id == answerId then { x with isSelected := some isSelected } else x

/-! ## Small reduction lemmas -/

theorem except_ok_bind {ε α β : Type} (x : α) (f : α → Except ε β) :
    (Except.ok x : Except ε α) >>= f = f x := rfl

theorem except_error_bind {ε α β : Type} (e : ε) (f : α → Except ε β) :
    (Except.error e : Except ε α) >>= f = Except.error e := rfl

/-! ## Claim C5, C6, C7, C8, C9 -/

/-- C5: validateQuestion reads the selected answer ids, hands the list to the
    gateway, and on a truthy result dispatches setQuestionValidated on the
    current question; on a falsy result it raises the fixed error message
    "response not ok" and dispatches nothing, so the state is unchanged. -/
theorem c5_validateQuestion_gateway (question : Question)
    (validate : List (Option String) → Bool) :
    (validate ((question.answers.filter (fun answer => jsTruthyBool answer.isSelected)).map Answer.id) = true →
      validateQuestion validate (some question) =
        Except.ok (some { question with isValidated := true })) ∧
    (validate ((question.answers.filter (fun answer => jsTruthyBool answer.isSelected)).map Answer.id) = false →
      validateQuestion validate (some question) = Except.error "response not ok") := by
  constructor
  · intro h
    simp [validateQuestion, selectQuestion, selectAnswers, selectSelectedAnswers,
      Except.map, except_ok_bind, h, reducer, setQuestionValidated]
  · intro h
    simp [validateQuestion, selectQuestion, selectAnswers, selectSelectedAnswers,
      Except.map, except_ok_bind, h]

/-- Witness for C5 on the demo question, with an accepting and a rejecting
    gateway. -/
theorem c5_witness :
    validateQuestion (fun _ => true) (some demoQuestion) =
      Except.ok (some { demoQuestion with isValidated := true }) ∧
    validateQuestion (fun _ => false) (some demoQuestion) = Except.error "response not ok" :=
  ⟨(c5_validateQuestion_gateway demoQuestion (fun _ => true)).1 rfl,
   (c5_validateQuestion_gateway demoQuestion (fun _ => false)).2 rfl⟩

/-- C6: on a non-null state, setQuestionValidated changes only the question's
    isValidated field; id, type, text and the answers list (hence every
    answer's fields and their order) are untouched. -/
theorem c6_setQuestionValidated_frame (question : Question) (questionId : String)
    (isValidated : Bool) :
    ∃ question',
      reducer (some question) (AppAction.setQuestionValidated questionId isValidated) =
        some question' ∧
      question'.id = question.id ∧ question'.type = question.type ∧
      question'.text = question.text ∧ question'.answers = question.answers ∧
      question'.isValidated = isValidated :=
  ⟨{ question with isValidated := isValidated }, rfl, rfl, rfl, rfl, rfl, rfl⟩

/-- C7: the reducer applies setQuestionValidated to the current question
    without comparing the action's questionId to the question's id: the
    result is the same for an arbitrary questionId as for the matching one. -/
theorem c7_setQuestionValidated_ignores_id (question : Question) (questionId : String)
    (isValidated : Bool) :
    reducer (some question) (AppAction.setQuestionValidated questionId isValidated) =
      some { question with isValidated := isValidated } ∧
    reducer (some question) (AppAction.setQuestionValidated questionId isValidated) =
      reducer (some question) (AppAction.setQuestionValidated question.id isValidated) :=
  ⟨rfl, rfl⟩

/-- C8: the stub endpoint answers every POST /validate-question request with
    status 201 and an empty body, whatever the payload. -/
theorem c8_post_validate_question (requestBody : String) :
    (postValidateQuestion requestBody).status = 201 ∧
    (postValidateQuestion requestBody).body = "" :=
  ⟨rfl, rfl⟩

/-- C9: on a null state both thunks throw the error "question is null" from
    selectQuestion before anything is dispatched; the error carries exactly
    that message, and since nothing is dispatched the state stays null. -/
theorem c9_null_state_throws (answer : Answer) (validate : List (Option String) → Bool) :
    selectAnswer answer none = Except.error "question is null" ∧
    validateQuestion validate none = Except.error "question is null" :=
  ⟨rfl, rfl⟩

/-! ## JavaScript findIndex and slice lemmas -/

theorem jsFindIndex_eq_neg_one {α : Type} (p : α → Bool) :
    ∀ l : List α, (∀ x ∈ l, p x = false) → jsFindIndex p l = -1 := by
  intro l
  induction l with
  | nil => intro _; rfl
  | cons x xs ih =>
    intro h
    have hx := h x (List.mem_cons_self x xs)
    have hxs := ih (fun y hy => h y (List.mem_cons_of_mem x hy))
    simp [jsFindIndex, hx, hxs]

theorem jsFindIndex_found {α : Type} (p : α → Bool) :
    ∀ l : List α, (∃ x ∈ l, p x = true) → ∃ m : Nat, jsFindIndex p l = (m : Int) := by
  intro l
  induction l with
  | nil => rintro ⟨x, hx, _⟩; cases hx
  | cons x xs ih =>
    rintro ⟨y, hy, hpy⟩
    by_cases hx : p x = true
    · exact ⟨0, by simp [jsFindIndex, hx]⟩
    · have hyx : y ∈ xs := by
        rcases List.mem_cons.mp hy with h | h
        · exact absurd (h ▸ hpy) hx
        · exact h
      obtain ⟨m, hm⟩ := ih ⟨y, hyx, hpy⟩
      refine ⟨m + 1, ?_⟩
      have : ¬ ((m : Int) < 0) := by omega
      simp [jsFindIndex, hx, hm, this]

theorem jsSlice_zero_nat {α : Type} (l : List α) (k : Nat) :
    jsSlice l 0 (k : Int) = l.take k := by
  unfold jsSlice jsNormIdx
  have h0 : ¬ ((0 : Int) < 0) := by omega
  have hk : ¬ ((k : Int) < 0) := by omega
  simp only [if_neg h0, if_neg hk, Int.toNat_zero, Int.toNat_ofNat]
  rw [Nat.min_eq_left (Nat.zero_le _), List.drop_zero]
  rcases Nat.le_total k l.length with h | h
  · rw [Nat.min_eq_left h]
  · rw [Nat.min_eq_right h, List.take_length, List.take_of_length_le h]

theorem jsSliceFrom_nat {α : Type} (l : List α) (k : Nat) :
    jsSliceFrom l (k : Int) = l.drop k := by
  unfold jsSliceFrom jsSlice jsNormIdx
  have h0 : ¬ (((l.length : Nat) : Int) < 0) := by omega
  have hk : ¬ ((k : Int) < 0) := by omega
  simp only [if_neg h0, if_neg hk, Int.toNat_ofNat]
  rw [Nat.min_self, List.take_length]
  rcases Nat.le_total k l.length with h | h
  · rw [Nat.min_eq_left h]
  · rw [Nat.min_eq_right h, List.drop_eq_nil_of_le h, List.drop_eq_nil_of_le (Nat.le_refl _)]

theorem jsGetElem_nat {α : Type} (l : List α) (k : Nat) :
    jsGetElem l (k : Int) = l.get? k := by
  have hk : ¬ ((k : Int) < 0) := by omega
  simp [jsGetElem, if_neg hk]

theorem jsAnswersUpdate_cons_match (x : Answer) (xs : List Answer)
    (answerId : Option String) (sel : Bool) (h : (x.id == answerId) = true) :
    jsAnswersUpdate answerId sel (x :: xs) = { x with isSelected := some sel } :: xs := by
  have hidx : jsFindIndex (fun answer => answer.id == answerId) (x :: xs) = ((0 : Nat) : Int) := by
    simp [jsFindIndex, h]
  simp only [jsAnswersUpdate, hidx]
  have h1 : ((0 : Nat) : Int) + 1 = ((1 : Nat) : Int) := by omega
  rw [h1, jsSlice_zero_nat, jsGetElem_nat, jsSliceFrom_nat]
  simp [jsSpreadSetSelected]

theorem jsAnswersUpdate_cons_noMatch (x : Answer) (xs : List Answer)
    (answerId : Option String) (sel : Bool) (hx : (x.id == answerId) = false)
    (hex : ∃ y ∈ xs, (y.id == answerId) = true) :
    jsAnswersUpdate answerId sel (x :: xs) = x :: jsAnswersUpdate answerId sel xs := by
  obtain ⟨m, hm⟩ := jsFindIndex_found (fun answer => answer.id == answerId) xs hex
  have hxb : ¬ ((x.id == answerId) = true) := by simp [hx]
  have hmn : ¬ ((m : Int) < 0) := by omega
  have hidx : jsFindIndex (fun answer => answer.id == answerId) (x :: xs) = ((m + 1 : Nat) : Int) := by
    simp [jsFindIndex, hxb, hm, hmn]
  have h2 : ((m + 1 : Nat) : Int) + 1 = ((m + 2 : Nat) : Int) := by omega
  have h3 : (m : Int) + 1 = ((m + 1 : Nat) : Int) := by omega
  simp only [jsAnswersUpdate, hidx, hm, h2, h3]
  rw [jsSlice_zero_nat, jsSlice_zero_nat, jsGetElem_nat, jsGetElem_nat,
    jsSliceFrom_nat, jsSliceFrom_nat]
  simp [List.take_succ_cons, List.get?_cons_succ, List.drop_succ_cons]

theorem jsAnswersUpdate_eq_updateFirst (answerId : Option String) (sel : Bool) :
    ∀ l : List Answer, (∃ x ∈ l, (x.id == answerId) = true) →
      jsAnswersUpdate answerId sel l = updateFirst answerId sel l := by
  intro l
  induction l with
  | nil => rintro ⟨x, hx, _⟩; cases hx
  | cons x xs ih =>
    rintro ⟨y, hy, hpy⟩
    by_cases hx : (x.id == answerId) = true
    · rw [jsAnswersUpdate_cons_match x xs answerId sel hx]
      simp [updateFirst, hx]
    · have hx' : (x.id == answerId) = false := by simp at hx; simp [hx]
      have hyx : y ∈ xs := by
        rcases List.mem_cons.mp hy with h | h
        · exact absurd (h ▸ hpy) hx
        · exact h
      rw [jsAnswersUpdate_cons_noMatch x xs answerId sel hx' ⟨y, hyx, hpy⟩]
      rw [ih ⟨y, hyx, hpy⟩]
      simp [updateFirst, hx']

theorem jsAnswersUpdate_no_match (answerId : Option String) (sel : Bool) (l : List Answer)
    (h : ∀ x ∈ l, (x.id == answerId) = false) :
    jsAnswersUpdate answerId sel l =
      l.take (l.length - 1) ++
        [{ id := none, text := none, isCorrect := none, isSelected := some sel }] ++ l := by
  have hidx : jsFindIndex (fun answer => answer.id == answerId) l = -1 :=
    jsFindIndex_eq_neg_one _ l h
  simp only [jsAnswersUpdate, hidx]
  have hs : jsSlice l 0 (-1) = l.take (l.length - 1) := by
    unfold jsSlice jsNormIdx
    have h0 : ¬ ((0 : Int) < 0) := by omega
    have h1 : ((-1 : Int) < 0) := by omega
    simp only [if_neg h0, if_pos h1, Int.toNat_zero]
    rw [Nat.min_eq_left (Nat.zero_le _), List.drop_zero]
    congr 1
    omega
  have hg : jsGetElem l (-1) = none := by
    unfold jsGetElem
    simp
  have hf : (-1 : Int) + 1 = ((0 : Nat) : Int) := by omega
  rw [hs, hg, hf, jsSliceFrom_nat]
  simp [jsSpreadSetSelected]

/-! ## updateFirst and setIf lemmas -/

theorem setIf_match (answerId : Option String) (sel : Bool) (x : Answer)
    (h : (x.id == answerId) = true) :
    setIf answerId sel x = { x with isSelected := some sel } := by
  simp [setIf, h]

theorem setIf_noMatch (answerId : Option String) (sel : Bool) (x : Answer)
    (h : (x.id == answerId) = false) :
    setIf answerId sel x = x := by
  simp [setIf, h]

theorem setIf_id (answerId : Option String) (sel : Bool) (x : Answer) :
    (setIf answerId sel x).id = x.id := by
  unfold setIf
  split <;> rfl

theorem updateFirst_map_id (answerId : Option String) (sel : Bool) :
    ∀ l : List Answer, (updateFirst answerId sel l).map Answer.id = l.map Answer.id := by
  intro l
  induction l with
  | nil => rfl
  | cons x xs ih =>
    by_cases h : (x.id == answerId) = true
    · simp [updateFirst, h]
    · simp only [Bool.not_eq_true] at h
      simp [updateFirst, h, ih]

theorem updateFirst_updateFirst (answerId : Option String) (b c : Bool) :
    ∀ l : List Answer,
      updateFirst answerId b (updateFirst answerId c l) = updateFirst answerId b l := by
  intro l
  induction l with
  | nil => rfl
  | cons x xs ih =>
    by_cases h : (x.id == answerId) = true
    · simp [updateFirst, h]
    · simp only [Bool.not_eq_true] at h
      simp [updateFirst, h, ih]

theorem mem_map_id_of_mem (l : List Answer) (a : Answer) (h : a ∈ l) :
    a.id ∈ l.map Answer.id :=
  List.mem_map_of_mem Answer.id h

theorem exists_beq_of_mem_ids (l : List Answer) (answerId : Option String)
    (h : answerId ∈ l.map Answer.id) : ∃ x ∈ l, (x.id == answerId) = true := by
  rcases List.mem_map.mp h with ⟨x, hx, hid⟩
  refine ⟨x, hx, ?_⟩
  rw [show x.id = answerId from hid]
  exact beq_self_eq_true answerId

theorem updateFirst_eq_map_setIf (answerId : Option String) (sel : Bool) :
    ∀ l : List Answer, (l.map Answer.id).Nodup →
      updateFirst answerId sel l = l.map (setIf answerId sel) := by
  intro l
  induction l with
  | nil => intro _; rfl
  | cons x xs ih =>
    intro hnd
    rw [List.map_cons, List.nodup_cons] at hnd
    by_cases h : (x.id == answerId) = true
    · have hid : x.id = answerId := beq_iff_eq.mp h
      have hxs : ∀ y ∈ xs, setIf answerId sel y = y := by
        intro y hy
        apply setIf_noMatch
        rw [beq_eq_false_iff_ne]
        intro heq
        exact hnd.1 (hid ▸ heq ▸ mem_map_id_of_mem xs y hy)
      rw [List.map_cons, setIf_match answerId sel x h]
      have hmapxs : xs.map (setIf answerId sel) = xs := by
        rw [List.map_congr_left hxs]
        exact List.map_id xs
      rw [hmapxs]
      simp [updateFirst, h]
    · simp only [Bool.not_eq_true] at h
      rw [List.map_cons, setIf_noMatch answerId sel x h]
      simp [updateFirst, h, ih hnd.2]

theorem countSel_updateFirst_le (answerId : Option String) (sel : Bool) :
    ∀ l : List Answer,
      selectedCount (updateFirst answerId sel l) ≤ selectedCount l + 1 := by
  intro l
  induction l with
  | nil => simp [updateFirst]
  | cons x xs ih =>
    by_cases h : (x.id == answerId) = true
    · simp only [updateFirst, if_pos h, selectedCount, List.countP_cons]
      split_ifs <;> omega
    · simp only [Bool.not_eq_true] at h
      simp only [updateFirst, h, Bool.false_eq_true, if_false, selectedCount, List.countP_cons]
      have := ih
      simp only [selectedCount] at this
      split_ifs <;> omega

/-! ## filter lemmas -/

theorem filter_map_comm {α β : Type} (g : α → β) (p : β → Bool) :
    ∀ l : List α, (l.map g).filter p = (l.filter (fun x => p (g x))).map g := by
  intro l
  induction l with
  | nil => rfl
  | cons x xs ih =>
    simp only [List.map_cons, List.filter_cons]
    by_cases h : p (g x) = true
    · simp [h, ih]
    · simp only [Bool.not_eq_true] at h
      simp [h, ih]

theorem filter_beq_id_singleton (a : Answer) :
    ∀ l : List Answer, (l.map Answer.id).Nodup → a ∈ l →
      l.filter (fun x => x.id == a.id) = [a] := by
  intro l
  induction l with
  | nil => intro _ h; cases h
  | cons x xs ih =>
    intro hnd hmem
    rw [List.map_cons, List.nodup_cons] at hnd
    rcases List.mem_cons.mp hmem with h | h
    · subst h
      have htail : xs.filter (fun x => x.id == a.id) = [] := by
        rw [List.filter_eq_nil_iff]
        intro y hy hbeq
        have hya : y.id = a.id := beq_iff_eq.mp hbeq
        exact hnd.1 (hya ▸ mem_map_id_of_mem xs y hy)
      simp [List.filter_cons, htail]
    · have hxa : (x.id == a.id) = false := by
        rw [beq_eq_false_iff_ne]
        intro heq
        exact hnd.1 (heq ▸ mem_map_id_of_mem xs a h)
      simp [List.filter_cons, hxa, ih hnd.2 h]

theorem filterSel_singleton (l : List Answer) (a : Answer)
    (hcnt : selectedCount l ≤ 1) (ha : a ∈ l) (hsel : jsTruthyBool a.isSelected = true) :
    l.filter (fun answer => jsTruthyBool answer.isSelected) = [a] := by
  have hmemf : a ∈ l.filter (fun answer => jsTruthyBool answer.isSelected) :=
    List.mem_filter.mpr ⟨ha, hsel⟩
  have hlen : (l.filter (fun answer => jsTruthyBool answer.isSelected)).length ≤ 1 := by
    rw [← List.countP_eq_length_filter]
    exact hcnt
  cases hfil : l.filter (fun answer => jsTruthyBool answer.isSelected) with
  | nil => rw [hfil] at hmemf; cases hmemf
  | cons b t =>
    cases t with
    | nil =>
      rw [hfil] at hmemf
      rcases List.mem_cons.mp hmemf with h | h
      · rw [h]
      · cases h
    | cons c t2 =>
      rw [hfil] at hlen
      simp at hlen

theorem id_ne_of_ne (l : List Answer) (a b : Answer)
    (hnd : (l.map Answer.id).Nodup) (ha : a ∈ l) (hb : b ∈ l) (hab : b ≠ a) :
    b.id ≠ a.id := by
  intro h
  have hfil := filter_beq_id_singleton a l hnd ha
  have hbmem : b ∈ l.filter (fun x => x.id == a.id) :=
    List.mem_filter.mpr ⟨hb, by rw [h]; exact beq_self_eq_true a.id⟩
  rw [hfil] at hbmem
  rcases List.mem_cons.mp hbmem with h' | h'
  · exact hab h'
  · cases h'

theorem filterSel_of_pointwise (l : List Answer) (g : Answer → Answer) (answer : Answer)
    (hnd : (l.map Answer.id).Nodup) (hmem : answer ∈ l)
    (hpt : ∀ x ∈ l, jsTruthyBool (g x).isSelected = (x.id == answer.id)) :
    (l.map g).filter (fun a => jsTruthyBool a.isSelected) = [g answer] := by
  rw [filter_map_comm]
  rw [List.filter_congr hpt]
  rw [filter_beq_id_singleton answer l hnd hmem]
  rfl

/-! ## Thunk characterisations -/

theorem reducer_setAnswerSelected (q : Question) (answerId : Option String) (sel : Bool) :
    reducer (some q) (AppAction.setAnswerSelected answerId sel) =
      some { q with answers := jsAnswersUpdate answerId sel q.answers } := rfl

theorem selectAnswer_not_ucq (answer : Answer) (q : Question)
    (h : ¬ q.type = QuestionType.UCQ) :
    selectAnswer answer (some q) =
      Except.ok (reducer (some q) (setAnswerSelected answer true)) := by
  simp [selectAnswer, selectQuestion, selectAnswers, selectSelectedAnswers,
    Except.map, except_ok_bind, h]

theorem selectAnswer_ucq_none (answer : Answer) (q : Question)
    (_ht : q.type = QuestionType.UCQ)
    (hh : (q.answers.filter (fun answer => jsTruthyBool answer.isSelected)).head? = none) :
    selectAnswer answer (some q) =
      Except.ok (reducer (some q) (setAnswerSelected answer true)) := by
  simp [selectAnswer, selectQuestion, selectAnswers, selectSelectedAnswers,
    Except.map, except_ok_bind, hh]

theorem selectAnswer_ucq_some (answer : Answer) (q : Question) (f : Answer)
    (ht : q.type = QuestionType.UCQ)
    (hh : (q.answers.filter (fun answer => jsTruthyBool answer.isSelected)).head? = some f) :
    selectAnswer answer (some q) =
      Except.ok (reducer (reducer (some q) (setAnswerSelected f false))
        (setAnswerSelected answer true)) := by
  simp [selectAnswer, selectQuestion, selectAnswers, selectSelectedAnswers,
    Except.map, except_ok_bind, ht, hh]

/-! ## Claim C3 -/

/-- C3 (amended): for every non-null state and every setAnswerSelected action
    whose answerId matches no answer of the current question, the reducer is
    NOT a no-op. findIndex yields -1, so slice(0, -1) drops the last answer,
    the spread of the undefined element yields an object carrying only
    isSelected, and slice(0) copies the whole list: the answers list becomes
    take (n-1) of the original, then the partial object, then the entire
    original list, and the resulting state always differs from the input. -/
theorem c3_unknown_id_not_noop (q : Question) (answerId : Option String) (sel : Bool)
    (h : ∀ x ∈ q.answers, (x.id == answerId) = false) :
    reducer (some q) (AppAction.setAnswerSelected answerId sel) =
      some { q with answers :=
        q.answers.take (q.answers.length - 1) ++
          [{ id := none, text := none, isCorrect := none, isSelected := some sel }] ++
          q.answers } ∧
    reducer (some q) (AppAction.setAnswerSelected answerId sel) ≠ some q := by
  have heq : reducer (some q) (AppAction.setAnswerSelected answerId sel) =
      some { q with answers :=
        q.answers.take (q.answers.length - 1) ++
          [{ id := none, text := none, isCorrect := none, isSelected := some sel }] ++
          q.answers } := by
    rw [reducer_setAnswerSelected, jsAnswersUpdate_no_match answerId sel q.answers h]
  refine ⟨heq, ?_⟩
  rw [heq]
  intro hcontra
  have h1 := Option.some.inj hcontra
  have h2 : q.answers.take (q.answers.length - 1) ++
      [({ id := none, text := none, isCorrect := none, isSelected := some sel } : Answer)] ++
      q.answers = q.answers := congrArg Question.answers h1
  have h3 := congrArg List.length h2
  simp [List.length_append, List.length_take] at h3
  omega

/-- Witness for C3 on the demo question with an id matching no answer. -/
theorem c3_witness :
    reducer (some demoQuestion) (AppAction.setAnswerSelected (some "zzz") true) =
      some { demoQuestion with answers :=
        demoQuestion.answers.take (demoQuestion.answers.length - 1) ++
          [{ id := none, text := none, isCorrect := none, isSelected := some true }] ++
          demoQuestion.answers } ∧
    reducer (some demoQuestion) (AppAction.setAnswerSelected (some "zzz") true) ≠
      some demoQuestion :=
  c3_unknown_id_not_noop demoQuestion (some "zzz") true (by decide)

/-- C3 counterexample to the claim as stated: on the one-answer question c3xQ
    a setAnswerSelected action with unknown id "zzz" does not leave the state
    unchanged; it produces c3xQ', whose answers list gained a partial answer
    object, so the update is not a no-op. -/
theorem c3_counterexample :
    reducer (some c3xQ) (AppAction.setAnswerSelected (some "zzz") true) = some c3xQ' ∧
    some c3xQ' ≠ (some c3xQ : AppState) := by
  constructor
  · rfl
  · decide

/-! ## Claim C1 -/

/-- C1 (amended): in a state holding a UCQ question whose answer ids are
    pairwise distinct and which satisfies the UCQ invariant (at most one
    selected answer), if answer a is selected and b is an answer distinct
    from a, then dispatching selectAnswer(b) yields a state in which the
    answer with b's id is selected and the answer with a's id is no longer
    selected. -/
theorem c1_ucq_second_select_deselects_first (q : Question) (a b : Answer)
    (hnd : (q.answers.map Answer.id).Nodup)
    (ht : q.type = QuestionType.UCQ)
    (hinv : selectedCount q.answers ≤ 1)
    (ha : a ∈ q.answers) (haSel : jsTruthyBool a.isSelected = true)
    (hb : b ∈ q.answers) (hab : b ≠ a) :
    ∃ q', selectAnswer b (some q) = Except.ok (some q') ∧
      { b with isSelected := some true } ∈ q'.answers ∧
      (∀ c ∈ q'.answers, c.id = b.id → c.isSelected = some true) ∧
      (∀ c ∈ q'.answers, c.id = a.id → c.isSelected = some false) := by
  have hfil : q.answers.filter (fun answer => jsTruthyBool answer.isSelected) = [a] :=
    filterSel_singleton q.answers a hinv ha haSel
  have hhead : (q.answers.filter (fun answer => jsTruthyBool answer.isSelected)).head? = some a := by
    rw [hfil]; rfl
  have hba : b.id ≠ a.id := id_ne_of_ne q.answers a b hnd ha hb hab
  have hbaF : (b.id == a.id) = false := beq_eq_false_iff_ne.mpr hba
  have hexa : ∃ x ∈ q.answers, (x.id == a.id) = true := ⟨a, ha, beq_self_eq_true a.id⟩
  have hL0 : jsAnswersUpdate a.id false q.answers = updateFirst a.id false q.answers :=
    jsAnswersUpdate_eq_updateFirst a.id false q.answers hexa
  have hM0 : updateFirst a.id false q.answers = q.answers.map (setIf a.id false) :=
    updateFirst_eq_map_setIf a.id false q.answers hnd
  have hids : (q.answers.map (setIf a.id false)).map Answer.id = q.answers.map Answer.id := by
    rw [List.map_map]
    exact List.map_congr_left (fun x _ => setIf_id a.id false x)
  have hexb : ∃ x ∈ q.answers.map (setIf a.id false), (x.id == b.id) = true :=
    exists_beq_of_mem_ids _ b.id (by rw [hids]; exact mem_map_id_of_mem q.answers b hb)
  have hnd1 : ((q.answers.map (setIf a.id false)).map Answer.id).Nodup := by
    rw [hids]; exact hnd
  have hL1 : jsAnswersUpdate b.id true (q.answers.map (setIf a.id false)) =
      (q.answers.map (setIf a.id false)).map (setIf b.id true) := by
    rw [jsAnswersUpdate_eq_updateFirst b.id true _ hexb,
      updateFirst_eq_map_setIf b.id true _ hnd1]
  refine ⟨{ q with answers := (q.answers.map (setIf a.id false)).map (setIf b.id true) },
    ?_, ?_, ?_, ?_⟩
  · rw [selectAnswer_ucq_some b q a ht hhead]
    have e1 : reducer (some q) (setAnswerSelected a false) =
        some { q with answers := q.answers.map (setIf a.id false) } := by
      rw [show setAnswerSelected a false = AppAction.setAnswerSelected a.id false from rfl,
        reducer_setAnswerSelected, hL0, hM0]
    rw [e1, show setAnswerSelected b true = AppAction.setAnswerSelected b.id true from rfl,
      reducer_setAnswerSelected]
    exact congrArg Except.ok
      (congrArg some (congrArg (fun ans => { q with answers := ans }) hL1))
  · have himg : setIf b.id true (setIf a.id false b) = { b with isSelected := some true } := by
      rw [setIf_noMatch a.id false b hbaF, setIf_match b.id true b (beq_self_eq_true b.id)]
    rw [← himg]
    exact List.mem_map_of_mem _ (List.mem_map_of_mem _ hb)
  · intro c hc hcb
    rcases List.mem_map.mp hc with ⟨y, hy, rfl⟩
    rcases List.mem_map.mp hy with ⟨x, hx, rfl⟩
    have hcid : (setIf b.id true (setIf a.id false x)).id = x.id := by
      rw [setIf_id, setIf_id]
    rw [hcid] at hcb
    have hxa : (x.id == a.id) = false := by
      rw [beq_eq_false_iff_ne, hcb]
      exact hba
    have hxb : (x.id == b.id) = true := by
      rw [hcb]
      exact beq_self_eq_true b.id
    rw [setIf_noMatch a.id false x hxa, setIf_match b.id true x hxb]
  · intro c hc hca
    rcases List.mem_map.mp hc with ⟨y, hy, rfl⟩
    rcases List.mem_map.mp hy with ⟨x, hx, rfl⟩
    have hcid : (setIf b.id true (setIf a.id false x)).id = x.id := by
      rw [setIf_id, setIf_id]
    rw [hcid] at hca
    have hxa : (x.id == a.id) = true := by
      rw [hca]
      exact beq_self_eq_true a.id
    have hxb : (({ x with isSelected := some false } : Answer).id == b.id) = false := by
      show (x.id == b.id) = false
      rw [beq_eq_false_iff_ne]
      intro h
      exact hba (h.symm.trans hca)
    rw [setIf_match a.id false x hxa, setIf_noMatch b.id true _ hxb]

/-- Witness for C1 on the demo question: answer2 is selected, selecting
    answer1 selects it and deselects answer2. -/
theorem c1_witness :
    ∃ q', selectAnswer demoAnswer1 (some demoQuestion) = Except.ok (some q') ∧
      { demoAnswer1 with isSelected := some true } ∈ q'.answers ∧
      (∀ c ∈ q'.answers, c.id = demoAnswer1.id → c.isSelected = some true) ∧
      (∀ c ∈ q'.answers, c.id = demoAnswer2.id → c.isSelected = some false) :=
  c1_ucq_second_select_deselects_first demoQuestion demoAnswer2 demoAnswer1
    (by decide) rfl (by decide) (by decide) rfl (by decide) (by decide)

/-- C1 counterexample to the claim as stated: on the UCQ question c1xQ whose
    two distinct answers share the id "x", with c1xA selected, dispatching
    selectAnswer(c1xB) returns the state unchanged: the deselect dispatch and
    the select dispatch both hit the first answer with that id, so c1xB is
    still not selected and c1xA is still selected. -/
theorem c1_counterexample :
    c1xQ.type = QuestionType.UCQ ∧ c1xA ∈ c1xQ.answers ∧ c1xA.isSelected = some true ∧
    c1xB ∈ c1xQ.answers ∧ c1xB ≠ c1xA ∧ c1xB.isSelected = some false ∧
    selectAnswer c1xB (some c1xQ) = Except.ok (some c1xQ) :=
  ⟨rfl, by decide, rfl, by decide, by decide, rfl, rfl⟩

/-! ## Claim C4 -/

theorem answer_update_selected_self (x : Answer) (v : Option Bool) (h : x.isSelected = v) :
    { x with isSelected := v } = x := by
  subst h
  rfl

/-- C4 (amended): on an MCQ question whose answer ids are pairwise distinct,
    selectAnswer(b) for an answer b of the question selects b, and every
    previously selected answer is still present unchanged (hence still
    selected): selection is additive. -/
theorem c4_mcq_additive (q : Question) (b : Answer)
    (ht : q.type = QuestionType.MCQ)
    (hnd : (q.answers.map Answer.id).Nodup)
    (hb : b ∈ q.answers) :
    ∃ q', selectAnswer b (some q) = Except.ok (some q') ∧
      { b with isSelected := some true } ∈ q'.answers ∧
      (∀ x ∈ q.answers, x.isSelected = some true → x ∈ q'.answers) := by
  have hne : ¬ q.type = QuestionType.UCQ := by
    rw [ht]
    decide
  have hexb : ∃ x ∈ q.answers, (x.id == b.id) = true := ⟨b, hb, beq_self_eq_true b.id⟩
  have hL : jsAnswersUpdate b.id true q.answers = q.answers.map (setIf b.id true) := by
    rw [jsAnswersUpdate_eq_updateFirst b.id true _ hexb,
      updateFirst_eq_map_setIf b.id true _ hnd]
  refine ⟨{ q with answers := q.answers.map (setIf b.id true) }, ?_, ?_, ?_⟩
  · rw [selectAnswer_not_ucq b q hne,
      show setAnswerSelected b true = AppAction.setAnswerSelected b.id true from rfl,
      reducer_setAnswerSelected]
    exact congrArg Except.ok
      (congrArg some (congrArg (fun ans => { q with answers := ans }) hL))
  · rw [← setIf_match b.id true b (beq_self_eq_true b.id)]
    exact List.mem_map_of_mem _ hb
  · intro x hx hsel
    by_cases hxb : (x.id == b.id) = true
    · have himg : setIf b.id true x = x := by
        rw [setIf_match b.id true x hxb]
        exact answer_update_selected_self x (some true) hsel
      rw [← himg]
      exact List.mem_map_of_mem _ hx
    · have hxbF : (x.id == b.id) = false := by
        simp only [Bool.not_eq_true] at hxb
        exact hxb
      rw [← setIf_noMatch b.id true x hxbF]
      exact List.mem_map_of_mem _ hx

/-- Witness for C4 on the MCQ copy of the demo question: selecting answer1
    keeps the previously selected answer2 selected. -/
theorem c4_witness :
    ∃ q', selectAnswer demoAnswer1 (some c4wQ) = Except.ok (some q') ∧
      { demoAnswer1 with isSelected := some true } ∈ q'.answers ∧
      (∀ x ∈ c4wQ.answers, x.isSelected = some true → x ∈ q'.answers) :=
  c4_mcq_additive c4wQ demoAnswer1 rfl (by decide) (by decide)

/-- C4 counterexample to the claim as stated: on the MCQ question c4xQ whose
    two distinct answers share the id "x", dispatching selectAnswer(c4xB)
    selects the OTHER answer with that id: the result c4xQ' does not contain
    a selected copy of c4xB, while c4xB itself is still present unselected. -/
theorem c4_counterexample :
    c4xQ.type = QuestionType.MCQ ∧ c4xB ∈ c4xQ.answers ∧
    selectAnswer c4xB (some c4xQ) = Except.ok (some c4xQ') ∧
    ¬ ({ c4xB with isSelected := some true } ∈ c4xQ'.answers) ∧
    c4xB ∈ c4xQ'.answers ∧ c4xB.isSelected = some false :=
  ⟨rfl, by decide, rfl, by decide, by decide, rfl⟩

/-! ## Invariant-preservation helpers -/

theorem select_step_inv (q : Question) (answerId : Option String)
    (h0 : selectedCount q.answers = 0) :
    stateUcqInv (reducer (some q) (AppAction.setAnswerSelected answerId true)) := by
  by_cases hex : ∃ x ∈ q.answers, (x.id == answerId) = true
  · rw [reducer_setAnswerSelected, jsAnswersUpdate_eq_updateFirst answerId true _ hex]
    intro _
    have hle := countSel_updateFirst_le answerId true q.answers
    simp only [selectedCount] at hle h0 ⊢
    omega
  · have hall : ∀ x ∈ q.answers, (x.id == answerId) = false := by
      intro x hx
      rcases Bool.eq_false_or_eq_true (x.id == answerId) with h | h
      · exact absurd ⟨x, hx, h⟩ hex
      · exact h
    rw [reducer_setAnswerSelected, jsAnswersUpdate_no_match answerId true _ hall]
    intro _
    have htake : selectedCount (q.answers.take (q.answers.length - 1)) ≤ selectedCount q.answers :=
      (List.take_sublist _ _).countP_le _
    simp only [selectedCount] at htake h0 ⊢
    rw [List.countP_append, List.countP_append]
    have hb : List.countP (fun answer => jsTruthyBool answer.isSelected)
        ([{ id := none, text := none, isCorrect := none, isSelected := some true }] :
          List Answer) = 1 := rfl
    rw [hb]
    omega

theorem countSel_deselect (l : List Answer) (f : Answer)
    (hnd : (l.map Answer.id).Nodup)
    (hf : l.filter (fun answer => jsTruthyBool answer.isSelected) = [f]) :
    selectedCount (updateFirst f.id false l) = 0 := by
  rw [updateFirst_eq_map_setIf f.id false l hnd]
  simp only [selectedCount]
  rw [List.countP_eq_length_filter, filter_map_comm]
  have hfilnil : l.filter (fun x => jsTruthyBool (setIf f.id false x).isSelected) = [] := by
    rw [List.filter_eq_nil_iff]
    intro x hx
    by_cases hxf : (x.id == f.id) = true
    · rw [setIf_match f.id false x hxf]
      intro hcontra
      cases hcontra
    · have hxfF : (x.id == f.id) = false := by
        simp only [Bool.not_eq_true] at hxf
        exact hxf
      rw [setIf_noMatch f.id false x hxfF]
      intro hsel
      have hmem : x ∈ l.filter (fun answer => jsTruthyBool answer.isSelected) :=
        List.mem_filter.mpr ⟨hx, hsel⟩
      rw [hf] at hmem
      rcases List.mem_cons.mp hmem with h' | h'
      · subst h'
        simp at hxfF
      · cases h'
  rw [hfilnil]
  rfl

theorem validateQuestion_some (validate : List (Option String) → Bool) (q : Question) :
    validateQuestion validate (some q) =
      if validate ((q.answers.filter (fun answer => jsTruthyBool answer.isSelected)).map Answer.id)
          = true
      then Except.ok (some { q with isValidated := true })
      else Except.error "response not ok" := by
  by_cases h : validate
      ((q.answers.filter (fun answer => jsTruthyBool answer.isSelected)).map Answer.id) = true
  · rw [if_pos h]
    simp [validateQuestion, selectQuestion, selectAnswers, selectSelectedAnswers,
      Except.map, except_ok_bind, h, reducer, setQuestionValidated]
  · rw [if_neg h]
    simp only [Bool.not_eq_true] at h
    simp [validateQuestion, selectQuestion, selectAnswers, selectSelectedAnswers,
      Except.map, except_ok_bind, h]

/-! ## Claim C2 -/

/-- C2 (amended): the UCQ invariant (at most one selected answer on a UCQ
    question) is preserved by setQuestionValidated and by validateQuestion on
    every state satisfying it; it is preserved by selectAnswer on every state
    satisfying it whose answer ids are pairwise distinct; and setQuestion
    establishes it exactly when the installed question satisfies it. It is
    NOT preserved by a raw setAnswerSelected dispatch (see the
    counterexample), so it does not hold in all reachable states. -/
theorem c2_ucq_invariant_ops :
    (∀ (s : AppState) (q : Question),
      stateUcqInv (some q) → stateUcqInv (reducer s (AppAction.setQuestion q))) ∧
    (∀ (s : AppState) (questionId : String) (v : Bool),
      stateUcqInv s → stateUcqInv (reducer s (AppAction.setQuestionValidated questionId v))) ∧
    (∀ (s : AppState) (answer : Answer) (s' : AppState),
      stateUcqInv s → stateNodupIds s →
      selectAnswer answer s = Except.ok s' → stateUcqInv s') ∧
    (∀ (s : AppState) (validate : List (Option String) → Bool) (s' : AppState),
      stateUcqInv s →
      validateQuestion validate s = Except.ok s' → stateUcqInv s') := by
  refine ⟨?_, ?_, ?_, ?_⟩
  · intro s q h
    cases s <;> exact h
  · intro s questionId v h
    cases s with
    | none => exact trivial
    | some q =>
      intro ht
      exact h ht
  · intro s answer s' hinv hnd heq
    cases s with
    | none =>
      rw [show selectAnswer answer none = Except.error "question is null" from rfl] at heq
      exact Except.noConfusion heq
    | some q =>
      by_cases ht : q.type = QuestionType.UCQ
      · cases hfil : q.answers.filter (fun answer => jsTruthyBool answer.isSelected) with
        | nil =>
          rw [selectAnswer_ucq_none answer q ht (by rw [hfil]; rfl)] at heq
          have hs' := Except.ok.inj heq
          subst hs'
          have h0 : selectedCount q.answers = 0 := by
            simp only [selectedCount, List.countP_eq_length_filter, hfil]
            rfl
          exact select_step_inv q answer.id h0
        | cons f rest =>
          have hcnt : selectedCount q.answers ≤ 1 := hinv ht
          have hlen : (q.answers.filter (fun answer => jsTruthyBool answer.isSelected)).length ≤ 1 := by
            rw [← List.countP_eq_length_filter]
            exact hcnt
          have hrest : rest = [] := by
            rw [hfil] at hlen
            simpa using hlen
          subst hrest
          rw [selectAnswer_ucq_some answer q f ht (by rw [hfil]; rfl)] at heq
          have hfmem : f ∈ q.answers :=
            (List.mem_filter.mp (by rw [hfil]; exact List.mem_cons_self f [])).1
          have hexf : ∃ x ∈ q.answers, (x.id == f.id) = true :=
            ⟨f, hfmem, beq_self_eq_true f.id⟩
          rw [show setAnswerSelected f false = AppAction.setAnswerSelected f.id false from rfl,
            reducer_setAnswerSelected, jsAnswersUpdate_eq_updateFirst f.id false _ hexf] at heq
          have hs' := Except.ok.inj heq
          subst hs'
          exact select_step_inv { q with answers := updateFirst f.id false q.answers } answer.id
            (countSel_deselect q.answers f hnd hfil)
      · rw [selectAnswer_not_ucq answer q ht] at heq
        have hs' := Except.ok.inj heq
        subst hs'
        intro ht'
        exact absurd ht' ht
  · intro s validate s' hinv heq
    cases s with
    | none =>
      rw [show validateQuestion validate none = Except.error "question is null" from rfl] at heq
      exact Except.noConfusion heq
    | some q =>
      rw [validateQuestion_some validate q] at heq
      by_cases h : validate
          ((q.answers.filter (fun answer => jsTruthyBool answer.isSelected)).map Answer.id) = true
      · rw [if_pos h] at heq
        have hs' := Except.ok.inj heq
        subst hs'
        intro ht'
        exact hinv ht'
      · rw [if_neg h] at heq
        exact Except.noConfusion heq

/-- Witness for C2: each preserved operation applied on the demo question. -/
theorem c2_witness :
    stateUcqInv (reducer (some demoQuestion) (AppAction.setQuestion demoQuestion)) ∧
    stateUcqInv (reducer (some demoQuestion) (AppAction.setQuestionValidated "question1" true)) ∧
    stateUcqInv (some c2wRes) ∧
    stateUcqInv (some { demoQuestion with isValidated := true }) :=
  ⟨c2_ucq_invariant_ops.1 (some demoQuestion) demoQuestion (by intro _; decide),
   c2_ucq_invariant_ops.2.1 (some demoQuestion) "question1" true (by intro _; decide),
   c2_ucq_invariant_ops.2.2.1 (some demoQuestion) demoAnswer1 (some c2wRes)
     (by intro _; decide) (by decide) rfl,
   c2_ucq_invariant_ops.2.2.2 (some demoQuestion) (fun _ => true)
     (some { demoQuestion with isValidated := true }) (by intro _; decide) rfl⟩

/-- C2 counterexample to the claim as stated: from the reachable state holding
    c2xQ (installed by setQuestion, UCQ, one answer selected), the store
    operation setAnswerSelected("a1", true) -- one of the operations the claim
    says preserves the invariant -- yields the reachable state c2xQ' in which
    two answers of the UCQ question are selected. -/
theorem c2_counterexample :
    stateUcqInv (some c2xQ) ∧
    List.foldl reducer none
      [AppAction.setQuestion c2xQ, AppAction.setAnswerSelected (some "a1") true] = some c2xQ' ∧
    ¬ stateUcqInv (some c2xQ') := by
  refine ⟨by intro _; decide, rfl, ?_⟩
  intro h
  exact absurd (h rfl) (by decide)

/-! ## Claim C10 -/

theorem uf_cons_pos (answerId : Option String) (sel : Bool) (x : Answer) (xs : List Answer)
    (h : (x.id == answerId) = true) :
    updateFirst answerId sel (x :: xs) = { x with isSelected := some sel } :: xs := by
  simp [updateFirst, h]

theorem uf_cons_neg (answerId : Option String) (sel : Bool) (x : Answer) (xs : List Answer)
    (h : (x.id == answerId) = false) :
    updateFirst answerId sel (x :: xs) = x :: updateFirst answerId sel xs := by
  simp [updateFirst, h]

/-- Selecting in a list with no selected answer: the selected-filter of the
    result is exactly the updated first match, whose id matches the target. -/
theorem filterSel_updateFirst_of_none (answerId : Option String) :
    ∀ l : List Answer, (∀ x ∈ l, jsTruthyBool x.isSelected = false) →
      (∃ x ∈ l, (x.id == answerId) = true) →
      ∃ w ∈ l, (w.id == answerId) = true ∧
        (updateFirst answerId true l).filter (fun x => jsTruthyBool x.isSelected) =
          [{ w with isSelected := some true }] := by
  intro l
  induction l with
  | nil => rintro _ ⟨x, hx, _⟩; cases hx
  | cons x xs ih =>
    intro hall hex
    by_cases hx : (x.id == answerId) = true
    · refine ⟨x, List.mem_cons_self x xs, hx, ?_⟩
      rw [uf_cons_pos answerId true x xs hx]
      have htail : xs.filter (fun y => jsTruthyBool y.isSelected) = [] := by
        rw [List.filter_eq_nil_iff]
        intro y hy hsel
        rw [hall y (List.mem_cons_of_mem x hy)] at hsel
        cases hsel
      simp only [List.filter_cons]
      rw [if_pos (show jsTruthyBool ({ x with isSelected := some true } : Answer).isSelected
        = true from rfl), htail]
    · have hxF : (x.id == answerId) = false := by
        simp only [Bool.not_eq_true] at hx
        exact hx
      have hex' : ∃ y ∈ xs, (y.id == answerId) = true := by
        rcases hex with ⟨y, hy, hpy⟩
        rcases List.mem_cons.mp hy with h | h
        · rw [h] at hpy
          rw [hpy] at hxF
          cases hxF
        · exact ⟨y, h, hpy⟩
      obtain ⟨w, hw, hwid, hfilxs⟩ :=
        ih (fun y hy => hall y (List.mem_cons_of_mem x hy)) hex'
      refine ⟨w, List.mem_cons_of_mem x hw, hwid, ?_⟩
      rw [uf_cons_neg answerId true x xs hxF]
      simp only [List.filter_cons]
      rw [if_neg (by rw [hall x (List.mem_cons_self x xs)]; exact fun h => by cases h), hfilxs]

/-- Deselecting the unique selected answer f: either nothing is selected any
    more, or the dispatch hit an earlier unselected answer sharing f's id, in
    which case f is still the unique selected answer and a repeat of the same
    deselect dispatch is a no-op. -/
theorem deselect_first_cases (f : Answer) :
    ∀ l : List Answer,
      l.filter (fun x => jsTruthyBool x.isSelected) = [f] →
      (updateFirst f.id false l).filter (fun x => jsTruthyBool x.isSelected) = [] ∨
      ((updateFirst f.id false l).filter (fun x => jsTruthyBool x.isSelected) = [f] ∧
        updateFirst f.id false (updateFirst f.id false l) = updateFirst f.id false l) := by
  intro l
  induction l with
  | nil => intro h; exact List.noConfusion h
  | cons x xs ih =>
    intro hfil
    simp only [List.filter_cons] at hfil
    by_cases hsel : jsTruthyBool x.isSelected = true
    · rw [if_pos hsel] at hfil
      injection hfil with hxf htail
      subst hxf
      left
      rw [uf_cons_pos x.id false x xs (beq_self_eq_true x.id)]
      simp only [List.filter_cons]
      rw [if_neg (show ¬ (jsTruthyBool ({ x with isSelected := some false } : Answer).isSelected
        = true) from fun h => by cases h)]
      exact htail
    · rw [if_neg hsel] at hfil
      by_cases hxf : (x.id == f.id) = true
      · right
        rw [uf_cons_pos f.id false x xs hxf]
        constructor
        · simp only [List.filter_cons]
          rw [if_neg (show ¬ (jsTruthyBool ({ x with isSelected := some false } :
            Answer).isSelected = true) from fun h => by cases h)]
          exact hfil
        · rw [uf_cons_pos f.id false { x with isSelected := some false } xs hxf]
      · have hxfF : (x.id == f.id) = false := by
          simp only [Bool.not_eq_true] at hxf
          exact hxf
        rcases ih hfil with h | ⟨h1, h2⟩
        · left
          rw [uf_cons_neg f.id false x xs hxfF]
          simp only [List.filter_cons]
          rw [if_neg hsel]
          exact h
        · right
          constructor
          · rw [uf_cons_neg f.id false x xs hxfF]
            simp only [List.filter_cons]
            rw [if_neg hsel]
            exact h1
          · rw [uf_cons_neg f.id false x xs hxfF,
              uf_cons_neg f.id false x (updateFirst f.id false xs) hxfF, h2]

/-- Selecting in a list whose unique selected answer is f: the head of the
    selected-filter of the result is either the updated first target match,
    or f itself, and in the latter case f's id differs from the target id. -/
theorem select_head_cases (answerId : Option String) (f : Answer) :
    ∀ l : List Answer,
      l.filter (fun x => jsTruthyBool x.isSelected) = [f] →
      (∃ x ∈ l, (x.id == answerId) = true) →
      (∃ w ∈ l, (w.id == answerId) = true ∧
        ((updateFirst answerId true l).filter (fun x => jsTruthyBool x.isSelected)).head? =
          some { w with isSelected := some true }) ∨
      (((updateFirst answerId true l).filter (fun x => jsTruthyBool x.isSelected)).head? =
          some f ∧ (f.id == answerId) = false) := by
  intro l
  induction l with
  | nil => intro h _; exact List.noConfusion h
  | cons x xs ih =>
    intro hfil hex
    by_cases hxa : (x.id == answerId) = true
    · left
      refine ⟨x, List.mem_cons_self x xs, hxa, ?_⟩
      rw [uf_cons_pos answerId true x xs hxa]
      simp only [List.filter_cons]
      rw [if_pos (show jsTruthyBool ({ x with isSelected := some true } : Answer).isSelected
        = true from rfl)]
      rfl
    · have hxaF : (x.id == answerId) = false := by
        simp only [Bool.not_eq_true] at hxa
        exact hxa
      have hex' : ∃ y ∈ xs, (y.id == answerId) = true := by
        rcases hex with ⟨y, hy, hpy⟩
        rcases List.mem_cons.mp hy with h | h
        · rw [h] at hpy
          rw [hpy] at hxaF
          cases hxaF
        · exact ⟨y, h, hpy⟩
      simp only [List.filter_cons] at hfil
      by_cases hsel : jsTruthyBool x.isSelected = true
      · rw [if_pos hsel] at hfil
        injection hfil with hxf htail
        subst hxf
        right
        constructor
        · rw [uf_cons_neg answerId true x xs hxaF]
          simp only [List.filter_cons]
          rw [if_pos hsel]
          rfl
        · exact hxaF
      · rw [if_neg hsel] at hfil
        rcases ih hfil hex' with ⟨w, hw, hwid, hhead⟩ | ⟨hhead, hfa⟩
        · left
          refine ⟨w, List.mem_cons_of_mem x hw, hwid, ?_⟩
          rw [uf_cons_neg answerId true x xs hxaF]
          simp only [List.filter_cons]
          rw [if_neg hsel]
          exact hhead
        · right
          refine ⟨?_, hfa⟩
          rw [uf_cons_neg answerId true x xs hxaF]
          simp only [List.filter_cons]
          rw [if_neg hsel]
          exact hhead

/-- A deselect dispatch that is a value-level no-op stays a no-op after a
    select dispatch with a different target id. -/
theorem uf_noop_after_select (fid answerId : Option String)
    (hne : (fid == answerId) = false) :
    ∀ l : List Answer, updateFirst fid false l = l →
      updateFirst fid false (updateFirst answerId true l) = updateFirst answerId true l := by
  intro l
  induction l with
  | nil => intro _; rfl
  | cons x xs ih =>
    intro hnoop
    by_cases hxa : (x.id == answerId) = true
    · have hxid : x.id = answerId := beq_iff_eq.mp hxa
      have hxfF : (x.id == fid) = false := by
        rw [beq_eq_false_iff_ne]
        intro h
        exact (beq_eq_false_iff_ne.mp hne) (h.symm.trans hxid)
      have htail : updateFirst fid false xs = xs := by
        rw [uf_cons_neg fid false x xs hxfF] at hnoop
        injection hnoop with h1 h2
      rw [uf_cons_pos answerId true x xs hxa,
        uf_cons_neg fid false { x with isSelected := some true } xs hxfF, htail]
    · have hxaF : (x.id == answerId) = false := by
        simp only [Bool.not_eq_true] at hxa
        exact hxa
      rw [uf_cons_neg answerId true x xs hxaF]
      by_cases hxf : (x.id == fid) = true
      · rw [uf_cons_pos fid false x xs hxf] at hnoop
        injection hnoop with h1 h2
        rw [uf_cons_pos fid false x (updateFirst answerId true xs) hxf, h1]
      · have hxfF : (x.id == fid) = false := by
          simp only [Bool.not_eq_true] at hxf
          exact hxf
        rw [uf_cons_neg fid false x xs hxfF] at hnoop
        injection hnoop with h1 h2
        rw [uf_cons_neg fid false x (updateFirst answerId true xs) hxfF, ih h2]

/-- Second selectAnswer call when the first selected answer of the state
    carries the target id: the deselect and the select dispatches cancel. -/
theorem second_call_select_id (q1 : Question) (answer w : Answer) (L : List Answer)
    (ht : q1.type = QuestionType.UCQ)
    (hans : q1.answers = updateFirst answer.id true L)
    (hw : (w.id == answer.id) = true)
    (hhead : (q1.answers.filter (fun x => jsTruthyBool x.isSelected)).head? =
      some { w with isSelected := some true })
    (hex : ∃ x ∈ q1.answers, (x.id == answer.id) = true) :
    selectAnswer answer (some q1) = Except.ok (some q1) := by
  have hwid : w.id = answer.id := beq_iff_eq.mp hw
  rw [selectAnswer_ucq_some answer q1 { w with isSelected := some true } ht hhead]
  have e1 : reducer (some q1) (setAnswerSelected { w with isSelected := some true } false) =
      some { q1 with answers := updateFirst answer.id false q1.answers } := by
    rw [show setAnswerSelected { w with isSelected := some true } false =
        AppAction.setAnswerSelected w.id false from rfl, hwid,
      reducer_setAnswerSelected, jsAnswersUpdate_eq_updateFirst answer.id false _ hex]
  rw [e1]
  have hexII : ∃ x ∈ updateFirst answer.id false q1.answers, (x.id == answer.id) = true := by
    apply exists_beq_of_mem_ids
    rw [updateFirst_map_id]
    rcases hex with ⟨x, hx, hbeq⟩
    exact (beq_iff_eq.mp hbeq) ▸ mem_map_id_of_mem _ x hx
  rw [show setAnswerSelected answer true = AppAction.setAnswerSelected answer.id true from rfl,
    reducer_setAnswerSelected]
  show Except.ok (some { q1 with answers := jsAnswersUpdate answer.id true (updateFirst answer.id false q1.answers) }) = Except.ok (some q1)
  have e2 : jsAnswersUpdate answer.id true (updateFirst answer.id false q1.answers) =
      q1.answers := by
    rw [jsAnswersUpdate_eq_updateFirst answer.id true _ hexII,
      updateFirst_updateFirst, hans, updateFirst_updateFirst]
  rw [e2]

/-- Second selectAnswer call when the deselect dispatch is a value-level
    no-op: only the (idempotent) select dispatch remains. -/
theorem second_call_noop_deselect (q1 : Question) (answer f : Answer) (L : List Answer)
    (ht : q1.type = QuestionType.UCQ)
    (hans : q1.answers = updateFirst answer.id true L)
    (hhead : (q1.answers.filter (fun x => jsTruthyBool x.isSelected)).head? = some f)
    (hnoop : updateFirst f.id false q1.answers = q1.answers)
    (hex : ∃ x ∈ q1.answers, (x.id == answer.id) = true) :
    selectAnswer answer (some q1) = Except.ok (some q1) := by
  have hfmem : f ∈ q1.answers := by
    have h1 : f ∈ q1.answers.filter (fun x => jsTruthyBool x.isSelected) := by
      cases hcase : q1.answers.filter (fun x => jsTruthyBool x.isSelected) with
      | nil => rw [hcase] at hhead; exact Option.noConfusion hhead
      | cons y ys =>
        rw [hcase] at hhead
        injection hhead with hyf
        rw [← hyf]
        exact List.mem_cons_self y ys
    exact (List.mem_filter.mp h1).1
  have hexf : ∃ x ∈ q1.answers, (x.id == f.id) = true := ⟨f, hfmem, beq_self_eq_true f.id⟩
  rw [selectAnswer_ucq_some answer q1 f ht hhead]
  have e1 : reducer (some q1) (setAnswerSelected f false) = some q1 := by
    rw [show setAnswerSelected f false = AppAction.setAnswerSelected f.id false from rfl,
      reducer_setAnswerSelected, jsAnswersUpdate_eq_updateFirst f.id false _ hexf, hnoop]
  rw [e1]
  rw [show setAnswerSelected answer true = AppAction.setAnswerSelected answer.id true from rfl,
    reducer_setAnswerSelected]
  have e2 : jsAnswersUpdate answer.id true q1.answers = q1.answers := by
    rw [jsAnswersUpdate_eq_updateFirst answer.id true _ hex, hans, updateFirst_updateFirst,
      ← hans]
  rw [e2]

/-- C10 (amended): selectAnswer is idempotent for every answer of the held
    question, provided that when the question is UCQ it satisfies the UCQ
    invariant (at most one selected answer). No restriction on answer ids is
    needed, and for MCQ questions idempotence holds unconditionally. -/
theorem c10_selectAnswer_idempotent (q : Question) (answer : Answer)
    (hmem : answer ∈ q.answers)
    (hucq : q.type = QuestionType.UCQ → selectedCount q.answers ≤ 1) :
    ∃ s1, selectAnswer answer (some q) = Except.ok s1 ∧
      selectAnswer answer s1 = Except.ok s1 := by
  have hexa : ∃ x ∈ q.answers, (x.id == answer.id) = true :=
    ⟨answer, hmem, beq_self_eq_true answer.id⟩
  by_cases ht : q.type = QuestionType.UCQ
  · have hcnt := hucq ht
    cases hfil : q.answers.filter (fun answer => jsTruthyBool answer.isSelected) with
    | nil =>
      have e1 : selectAnswer answer (some q) =
          Except.ok (some { q with answers := updateFirst answer.id true q.answers }) := by
        rw [selectAnswer_ucq_none answer q ht (by rw [hfil]; rfl),
          show setAnswerSelected answer true = AppAction.setAnswerSelected answer.id true from rfl,
          reducer_setAnswerSelected, jsAnswersUpdate_eq_updateFirst answer.id true _ hexa]
      refine ⟨some { q with answers := updateFirst answer.id true q.answers }, e1, ?_⟩
      have hall : ∀ x ∈ q.answers, jsTruthyBool x.isSelected = false := by
        have hnil := List.filter_eq_nil_iff.mp hfil
        intro x hx
        rcases Bool.eq_false_or_eq_true (jsTruthyBool x.isSelected) with h | h
        · exact absurd h (hnil x hx)
        · exact h
      obtain ⟨w, hw, hwid, hfilL1⟩ := filterSel_updateFirst_of_none answer.id q.answers hall hexa
      refine second_call_select_id { q with answers := updateFirst answer.id true q.answers }
        answer w q.answers ht rfl hwid ?_ ?_
      · show ((updateFirst answer.id true q.answers).filter
            (fun x => jsTruthyBool x.isSelected)).head? = some { w with isSelected := some true }
        rw [hfilL1]
        rfl
      · show ∃ x ∈ updateFirst answer.id true q.answers, (x.id == answer.id) = true
        apply exists_beq_of_mem_ids
        rw [updateFirst_map_id]
        exact mem_map_id_of_mem _ answer hmem
    | cons f rest =>
      have hlen : (q.answers.filter (fun answer => jsTruthyBool answer.isSelected)).length ≤ 1 := by
        rw [← List.countP_eq_length_filter]
        exact hcnt
      have hrest : rest = [] := by
        rw [hfil] at hlen
        simpa using hlen
      subst hrest
      have hfmem : f ∈ q.answers :=
        (List.mem_filter.mp (by rw [hfil]; exact List.mem_cons_self f [])).1
      have hexf : ∃ x ∈ q.answers, (x.id == f.id) = true := ⟨f, hfmem, beq_self_eq_true f.id⟩
      have hexaL0 : ∃ x ∈ updateFirst f.id false q.answers, (x.id == answer.id) = true := by
        apply exists_beq_of_mem_ids
        rw [updateFirst_map_id]
        exact mem_map_id_of_mem _ answer hmem
      have e1 : selectAnswer answer (some q) =
          Except.ok (some { q with answers := updateFirst answer.id true (updateFirst f.id false q.answers) }) := by
        rw [selectAnswer_ucq_some answer q f ht (by rw [hfil]; rfl)]
        have i1 : reducer (some q) (setAnswerSelected f false) =
            some { q with answers := updateFirst f.id false q.answers } := by
          rw [show setAnswerSelected f false = AppAction.setAnswerSelected f.id false from rfl,
            reducer_setAnswerSelected, jsAnswersUpdate_eq_updateFirst f.id false _ hexf]
        rw [i1,
          show setAnswerSelected answer true = AppAction.setAnswerSelected answer.id true from rfl,
          reducer_setAnswerSelected]
        exact congrArg Except.ok (congrArg some (congrArg (fun ans => { q with answers := ans })
          (jsAnswersUpdate_eq_updateFirst answer.id true _ hexaL0)))
      refine ⟨some { q with answers := updateFirst answer.id true (updateFirst f.id false q.answers) }, e1, ?_⟩
      rcases deselect_first_cases f q.answers hfil with hE1 | ⟨hE2fil, hE2noop⟩
      · have hallL0 : ∀ x ∈ updateFirst f.id false q.answers,
            jsTruthyBool x.isSelected = false := by
          have hnil := List.filter_eq_nil_iff.mp hE1
          intro x hx
          rcases Bool.eq_false_or_eq_true (jsTruthyBool x.isSelected) with h | h
          · exact absurd h (hnil x hx)
          · exact h
        obtain ⟨w, hw, hwid, hfilL1⟩ :=
          filterSel_updateFirst_of_none answer.id (updateFirst f.id false q.answers) hallL0 hexaL0
        refine second_call_select_id
          { q with answers := updateFirst answer.id true (updateFirst f.id false q.answers) }
          answer w (updateFirst f.id false q.answers) ht rfl hwid ?_ ?_
        · show ((updateFirst answer.id true (updateFirst f.id false q.answers)).filter
              (fun x => jsTruthyBool x.isSelected)).head? = some { w with isSelected := some true }
          rw [hfilL1]
          rfl
        · show ∃ x ∈ updateFirst answer.id true (updateFirst f.id false q.answers),
              (x.id == answer.id) = true
          apply exists_beq_of_mem_ids
          rw [updateFirst_map_id, updateFirst_map_id]
          exact mem_map_id_of_mem _ answer hmem
      · rcases select_head_cases answer.id f (updateFirst f.id false q.answers) hE2fil hexaL0 with
          ⟨w, hw, hwid, hhead⟩ | ⟨hhead, hfa⟩
        · refine second_call_select_id
            { q with answers := updateFirst answer.id true (updateFirst f.id false q.answers) }
            answer w (updateFirst f.id false q.answers) ht rfl hwid ?_ ?_
          · exact hhead
          · show ∃ x ∈ updateFirst answer.id true (updateFirst f.id false q.answers),
                (x.id == answer.id) = true
            apply exists_beq_of_mem_ids
            rw [updateFirst_map_id, updateFirst_map_id]
            exact mem_map_id_of_mem _ answer hmem
        · have hnoopL1 : updateFirst f.id false
              (updateFirst answer.id true (updateFirst f.id false q.answers)) =
              updateFirst answer.id true (updateFirst f.id false q.answers) :=
            uf_noop_after_select f.id answer.id hfa (updateFirst f.id false q.answers) hE2noop
          refine second_call_noop_deselect
            { q with answers := updateFirst answer.id true (updateFirst f.id false q.answers) }
            answer f (updateFirst f.id false q.answers) ht rfl ?_ ?_ ?_
          · exact hhead
          · exact hnoopL1
          · show ∃ x ∈ updateFirst answer.id true (updateFirst f.id false q.answers),
                (x.id == answer.id) = true
            apply exists_beq_of_mem_ids
            rw [updateFirst_map_id, updateFirst_map_id]
            exact mem_map_id_of_mem _ answer hmem
  · have e1 : selectAnswer answer (some q) =
        Except.ok (some { q with answers := updateFirst answer.id true q.answers }) := by
      rw [selectAnswer_not_ucq answer q ht,
        show setAnswerSelected answer true = AppAction.setAnswerSelected answer.id true from rfl,
        reducer_setAnswerSelected, jsAnswersUpdate_eq_updateFirst answer.id true _ hexa]
    refine ⟨some { q with answers := updateFirst answer.id true q.answers }, e1, ?_⟩
    have hexa1 : ∃ x ∈ updateFirst answer.id true q.answers, (x.id == answer.id) = true := by
      apply exists_beq_of_mem_ids
      rw [updateFirst_map_id]
      exact mem_map_id_of_mem _ answer hmem
    rw [selectAnswer_not_ucq answer { q with answers := updateFirst answer.id true q.answers } ht,
      show setAnswerSelected answer true = AppAction.setAnswerSelected answer.id true from rfl,
      reducer_setAnswerSelected]
    show Except.ok (some { q with answers := jsAnswersUpdate answer.id true (updateFirst answer.id true q.answers) }) = Except.ok (some { q with answers := updateFirst answer.id true q.answers })
    rw [jsAnswersUpdate_eq_updateFirst answer.id true _ hexa1, updateFirst_updateFirst]

/-- Witness for C10 on the demo question. -/
theorem c10_witness :
    ∃ s1, selectAnswer demoAnswer1 (some demoQuestion) = Except.ok s1 ∧
      selectAnswer demoAnswer1 s1 = Except.ok s1 :=
  c10_selectAnswer_idempotent demoQuestion demoAnswer1 (by decide) (fun _ => by decide)

/-- C10 counterexample to the claim as stated: on the UCQ question c10xQ with
    two answers selected, the first selectAnswer(c10xA) deselects only the
    first selected answer p, reaching c10xS1; the second call then deselects
    r, reaching c10xS2 which differs from c10xS1, so the double dispatch does
    not equal the single one. -/
theorem c10_counterexample :
    c10xA ∈ c10xQ.answers ∧
    selectAnswer c10xA (some c10xQ) = Except.ok (some c10xS1) ∧
    selectAnswer c10xA (some c10xS1) = Except.ok (some c10xS2) ∧
    some c10xS1 ≠ (some c10xS2 : AppState) :=
  ⟨by decide, rfl, rfl, by decide⟩
